import Mathlib

/-!
Formalisation of `rubyvenv`, a tool that provisions prebuilt ruby
environments into a destination directory.

Modelling conventions (shallow embedding of `rubyvenv.py`):
* Python `str` values are modelled as `List Char`; `bytes` as `List Nat`.
* A Python function that can raise an exception is modelled as returning
  `Option` (`none` = the exception) or `Except` when the exception value
  matters.
* The filesystem slice touched by the content cache is modelled as an
  association list from absolute paths to file contents.
* Python standard-library black boxes that this program merely threads
  through (`gzip` decompression, `urllib.parse.urljoin`) are taken as
  parameters of the functions that use them.
-/

set_option maxRecDepth 100000

/-! ## Definitions -/

/-- The fixed archive-name leading literal `'ruby-'` of `rubyvenv.py`. -/
def rubyLead : List Char := "ruby-".toList

/-- The fixed archive-name trailing literal `'.tar.bz2'` of `rubyvenv.py`. -/
def tarBz2Trail : List Char := ".tar.bz2".toList

/-- `_filename_to_version(filename)`: asserts the `'.tar.bz2'` trailing
literal and the `'ruby-'` leading literal, then returns the Python slice
`filename[len('ruby-'):-len('.tar.bz2')]`.  `none` models the
`AssertionError` raised when either assert fails. -/
def filename_to_version (filename : List Char) : Option (List Char) :=
  if tarBz2Trail.isSuffixOf filename then
    if rubyLead.isPrefixOf filename then
      some ((filename.drop rubyLead.length).take
        (filename.length - (rubyLead.length + tarBz2Trail.length)))
    else none
  else none

/-- `_version_to_filename(version)`: the f-string `f'ruby-{version}.tar.bz2'`. -/
def version_to_filename (version : List Char) : List Char :=
  rubyLead ++ version ++ tarBz2Trail

/-- Python substring membership `pat in s` for strings. -/
def containsSub (pat : List Char) : List Char → Bool
  | [] => pat.isPrefixOf []
  | c :: rest => pat.isPrefixOf (c :: rest) || containsSub pat rest

/-- The filesystem slice seen by the content cache: absolute path ↦ bytes. -/
abbrev FS : Type := List (List Char × List Nat)

/-- Content of the file at path `p`, `none` when no such file exists. -/
def fsLookup (p : List Char) (fs : FS) : Option (List Nat) :=
  (fs.find? (fun e => e.1 == p)).map (fun e => e.2)

/-- `os.remove(p)` / disappearance of the entry at `p`. -/
def fsErase (p : List Char) (fs : FS) : FS :=
  fs.filter (fun e => !(e.1 == p))

/-- Creating or overwriting the file at `p` with content `d`. -/
def fsWrite (p : List Char) (d : List Nat) (fs : FS) : FS :=
  (p, d) :: fsErase p fs

/-- `os.path.join(a, b)` for the two-argument POSIX case. -/
def osPathJoin (a b : List Char) : List Char :=
  if b.take 1 = ['/'] then b
  else if a = [] ∨ a.getLast? = some '/' then a ++ b
  else a ++ '/' :: b

/-- Behaviour of the scoped byte stream returned by `get_fileobj()` in
`ensure_cache_file`: either the whole content is copied, or an exception
`exc` is raised after `part` bytes were already copied into the temp file
(`part = []` covers `get_fileobj()` itself raising). -/
inductive SourceResult (E : Type) where
  | ok (data : List Nat)
  | err (part : List Nat) (exc : E)

/-- `ensure_cache_file(relpath, get_fileobj)` over the modelled filesystem.
`cache_dir` is the result of `get_cache_dir()`; `tmpname` is the unique
basename chosen by `tempfile.NamedTemporaryFile(dir=tmpdir, delete=False)`.
Step by step as in the source: on a cache hit return the path unchanged;
otherwise create the temp file (empty), copy from the source
(`shutil.copyfileobj`), on any exception `os.remove` the temp file and
re-raise, and on success `os.rename` the temp file onto the final path. -/
def ensure_cache_file {E : Type} (cache_dir relpath tmpname : List Char)
    (src : SourceResult E) (fs : FS) : FS × Except E (List Char) :=
  if (fsLookup (osPathJoin cache_dir relpath) fs).isSome then
    (fs, Except.ok (osPathJoin cache_dir relpath))
  else
    match src with
    | SourceResult.err part e =>
        (fsErase (osPathJoin (osPathJoin cache_dir "tmp".toList) tmpname)
          (fsWrite (osPathJoin (osPathJoin cache_dir "tmp".toList) tmpname)
            part
            (fsWrite (osPathJoin (osPathJoin cache_dir "tmp".toList) tmpname)
              [] fs)),
          Except.error e)
    | SourceResult.ok data =>
        (fsWrite (osPathJoin cache_dir relpath) data
          (fsErase (osPathJoin (osPathJoin cache_dir "tmp".toList) tmpname)
            (fsWrite (osPathJoin (osPathJoin cache_dir "tmp".toList) tmpname)
              data
              (fsWrite (osPathJoin (osPathJoin cache_dir "tmp".toList) tmpname)
                [] fs))),
          Except.ok (osPathJoin cache_dir relpath))

/-- The member filter of `make_environment`:
`not member.name.endswith('/cache') and '/cache/' not in member.name`. -/
def member_kept (name : List Char) : Bool :=
  !("/cache".toList.isSuffixOf name) && !(containsSub "/cache/".toList name)

/-- The member rewrite of `make_environment`: strip everything up to and
including the first `os.sep` (`_, member.name = member.name.split(os.sep, 1)`),
and a name with no separator becomes `''`. -/
def member_stripped (name : List Char) : List Char :=
  if '/' ∈ name then (name.dropWhile (fun c => !(c == '/'))).drop 1 else []

/-- The member-list transformation of `make_environment` before
`tar_file.extractall`: filter, then rewrite every kept name. -/
def make_environment_members (names : List (List Char)) : List (List Char) :=
  (names.filter member_kept).map member_stripped

/-- Python `bytes.decode('UTF-8')` (strict): bytes to code points, `none`
modelling `UnicodeDecodeError`.  Rejects continuation-byte leads, the
overlong leads `C0`/`C1`, overlong encodings, surrogates, leads above `F4`
and code points above `0x10FFFF`, truncated sequences — exactly the inputs
Python's strict UTF-8 codec rejects. -/
def utf8Decode : List Nat → Option (List Nat)
  | [] => some []
  | b0 :: rest =>
    if b0 < 0x80 then (utf8Decode rest).map (b0 :: ·)
    else if b0 < 0xC2 then none
    else if b0 < 0xE0 then
      match rest with
      | b1 :: rest1 =>
        if 0x80 ≤ b1 ∧ b1 < 0xC0 then
          (utf8Decode rest1).map (((b0 - 0xC0) * 64 + (b1 - 0x80)) :: ·)
        else none
      | [] => none
    else if b0 < 0xF0 then
      match rest with
      | b1 :: b2 :: rest2 =>
        if (0x80 ≤ b1 ∧ b1 < 0xC0) ∧ (0x80 ≤ b2 ∧ b2 < 0xC0) then
          if 0x800 ≤ (b0 - 0xE0) * 4096 + (b1 - 0x80) * 64 + (b2 - 0x80)
              ∧ ¬ (0xD800 ≤ (b0 - 0xE0) * 4096 + (b1 - 0x80) * 64 + (b2 - 0x80)
                    ∧ (b0 - 0xE0) * 4096 + (b1 - 0x80) * 64 + (b2 - 0x80) ≤ 0xDFFF) then
            (utf8Decode rest2).map
              (((b0 - 0xE0) * 4096 + (b1 - 0x80) * 64 + (b2 - 0x80)) :: ·)
          else none
        else none
      | _ => none
    else if b0 < 0xF5 then
      match rest with
      | b1 :: b2 :: b3 :: rest3 =>
        if (0x80 ≤ b1 ∧ b1 < 0xC0) ∧ (0x80 ≤ b2 ∧ b2 < 0xC0)
            ∧ (0x80 ≤ b3 ∧ b3 < 0xC0) then
          if 0x10000 ≤ (b0 - 0xF0) * 0x40000 + (b1 - 0x80) * 4096
                + (b2 - 0x80) * 64 + (b3 - 0x80)
              ∧ (b0 - 0xF0) * 0x40000 + (b1 - 0x80) * 4096
                + (b2 - 0x80) * 64 + (b3 - 0x80) ≤ 0x10FFFF then
            (utf8Decode rest3).map
              (((b0 - 0xF0) * 0x40000 + (b1 - 0x80) * 4096
                + (b2 - 0x80) * 64 + (b3 - 0x80)) :: ·)
          else none
        else none
      | _ => none
    else none

/-- `_decode_response(resp_bytes)`: try a strict UTF-8 decode of the raw
bytes; only on `UnicodeDecodeError` fall back to gzip-decompressing the
bytes and UTF-8-decoding the result.  `gunzip` is the standard-library
black box `gzip.GzipFile(fileobj=BytesIO(resp_bytes)).read()` (`none` =
it raised); an overall `none` models the exception propagating. -/
def decode_response (gunzip : List Nat → Option (List Nat))
    (resp_bytes : List Nat) : Option (List Nat) :=
  match utf8Decode resp_bytes with
  | some s => some s
  | none => (gunzip resp_bytes).bind utf8Decode

/-- `Platform` (a `NamedTuple` in the source): distribution name,
distribution version, machine architecture. -/
structure Platform where
  name : List Char
  version : List Char
  arch : List Char

/-- The `rvm_url` property:
`f'https://rvm.io/binaries/{self.name}/{self.version}/{self.arch}/'`. -/
def Platform.rvm_url (p : Platform) : List Char :=
  "https://rvm.io/binaries/".toList ++ p.name ++ "/".toList
    ++ p.version ++ "/".toList ++ p.arch ++ "/".toList

/-- `Version` (a `NamedTuple` in the source): version string and its
download URL. -/
structure Version where
  version : List Char
  url : List Char
deriving DecidableEq

/-- `_download_url(platform_info, version)`.  `urljoin` is the
standard-library black box `urllib.parse.urljoin`, taken as a parameter. -/
def download_url (urljoin : List Char → List Char → List Char)
    (platform_info : Platform) (version : List Char) : List Char :=
  urljoin platform_info.rvm_url (version_to_filename version)

/-- `pick_version(version)`.  `catalog` is the value
`get_prebuilt_versions(platform_info)` would return; the source only
fetches it inside the `'latest'` branch, which the theorems express by
quantifying over `catalog` in the other branch.  `getLast?` models the
Python `[-1]` (`none` = `IndexError` on an empty catalog). -/
def pick_version (urljoin : List Char → List Char → List Char)
    (platform_info : Platform) (catalog : List Version)
    (version : List Char) : Option Version :=
  if version = "latest".toList then catalog.getLast?
  else some ⟨version, download_url urljoin platform_info version⟩

/-- `get_prebuilt_versions(platform_info)` downstream of the network fetch
and HTML parse: `hrefs` is `parser.hrefs`.  The generator keeps hrefs that
are not `None` and start with `'ruby-'`, and builds
`Version(_filename_to_version(href), urljoin(url, href))` for each kept
href; `none` models the `AssertionError` escaping from
`_filename_to_version` when forcing the `tuple(...)`. -/
def get_prebuilt_versions (urljoin : List Char → List Char → List Char)
    (platform_info : Platform) (hrefs : List (Option (List Char))) :
    Option (List Version) :=
  (hrefs.filterMap (fun h => match h with
      | none => none
      | some s => if rubyLead.isPrefixOf s then some s else none)).mapM
    (fun href => (filename_to_version href).map
      (fun v => Version.mk v (urljoin platform_info.rvm_url href)))

/-- The argument record `argparse` hands to `main`: `dest` (`None` when
the positional argument is absent), `--ruby` (default `'latest'`),
`--list-versions`. -/
structure Args where
  dest : Option (List Char)
  ruby : List Char
  list_versions : Bool

/-- The action `main` commits to, as observable from outside: listing
versions, a usage error (exit status and message of `parser.error`), or
one of the two installation paths (recording their arguments; their side
effects happen past the dispatch). -/
inductive MainAction where
  | list_versions_action
  | usage_error (code : Nat) (msg : List Char)
  | make_system_environment (dest : List Char)
  | make_environment (dest ruby : List Char)
deriving DecidableEq

/-- The dispatch logic of `main(argv)` after argument parsing.  Python's
`if not args.dest` is true for `None` and for `''`; `parser.error(msg)`
prints the message and exits with status 2.  `os.path.abspath` is kept
abstract: the selected action records `dest` as given. -/
def main_dispatch (args : Args) : MainAction :=
  if args.list_versions then MainAction.list_versions_action
  else if args.dest = none ∨ args.dest = some [] then
    MainAction.usage_error 2 "DEST_DIR is required".toList
  else if args.ruby = "system".toList then
    MainAction.make_system_environment (args.dest.getD [])
  else
    MainAction.make_environment (args.dest.getD []) args.ruby

/-- `str.replace(pat, rep)`: replace every occurrence of `pat` left to
right without overlap (an empty `pat` is treated as no occurrence; the
only use site has `pat = 'DIRECTORY'`). -/
def replaceAll (pat rep : List Char) : List Char → List Char
  | [] => []
  | c :: rest =>
    if h : pat ≠ [] ∧ pat.isPrefixOf (c :: rest) = true then
      rep ++ replaceAll pat rep ((c :: rest).drop pat.length)
    else c :: replaceAll pat rep rest
  termination_by s => s.length
  decreasing_by
    · have hp : 0 < pat.length := List.length_pos.mpr h.1
      simp only [List.length_drop, List.length_cons]
      omega
    · simp

/-- `pat` occurs nowhere starting inside the first `a.length` positions of
`a ++ tail`. -/
def noEarlyOcc (pat : List Char) : List Char → List Char → Bool
  | [], _ => true
  | c :: a, tail => !(pat.isPrefixOf (c :: (a ++ tail))) && noEarlyOcc pat a tail

/-- The characters `shlex.quote` (= `pipes.quote`) leaves unquoted:
ASCII letters and digits plus `_ @ % + = : , .`, slash and dash. -/
def shellSafe (c : Char) : Bool :=
  c.isAlphanum || "@%+=:,./-_".toList.contains c

/-- `pipes.quote(s)`: return `s` unchanged when every character is safe,
`\x27\x27` for the empty string, otherwise wrap in single quotes with each
embedded single quote replaced by `\x27"\x27"\x27`. -/
def shellQuote (s : List Char) : List Char :=
  if s = [] then [Char.ofNat 39, Char.ofNat 39]
  else if s.all shellSafe then s
  else
    Char.ofNat 39
      :: s.foldr (fun c acc =>
          (if c = Char.ofNat 39
            then [Char.ofNat 39, '"', Char.ofNat 39, '"', Char.ofNat 39]
            else [c]) ++ acc)
        [Char.ofNat 39]

/-- The `ACTIVATE` template of the source, verbatim (braces written with
`\x7b`/`\x7d` escapes). -/
def ACTIVATE : List Char := String.toList (
  "# This file must be used with \"source bin/activate\" *from bash*\n"
    ++ "# you cannot run it directly\n"
    ++ "\n"
    ++ "deactivate_rubyvenv () \x7b\n"
    ++ "    # reset old environment variables\n"
    ++ "    # ! [ -z $\x7bVAR+_\x7d ] returns true if VAR is declared at all\n"
    ++ "    if ! [ -z \"$\x7b_OLD_RUBYVENV_PATH+_\x7d\" ] ; then\n"
    ++ "        PATH=\"$_OLD_RUBYVENV_PATH\"\n"
    ++ "        export PATH\n"
    ++ "        unset _OLD_RUBYVENV_PATH\n"
    ++ "    fi\n"
    ++ "\n"
    ++ "    # This should detect bash and zsh, which have a hash command that must\n"
    ++ "    # be called to get it to forget past commands.  Without forgetting\n"
    ++ "    # past commands the $PATH changes we made may not be respected\n"
    ++ "    if [ -n \"$\x7bBASH-\x7d\" ] || [ -n \"$\x7bZSH_VERSION-\x7d\" ] ; then\n"
    ++ "        hash -r 2>/dev/null\n"
    ++ "    fi\n"
    ++ "\n"
    ++ "    if ! [ -z \"$\x7b_OLD_RUBYVENV_PS1+_\x7d\" ] ; then\n"
    ++ "        PS1=\"$_OLD_RUBYVENV_PS1\"\n"
    ++ "        export PS1\n"
    ++ "        unset _OLD_RUBYVENV_PS1\n"
    ++ "    fi\n"
    ++ "\n"
    ++ "    if ! [ -z \"$\x7b_OLD_RUBYVENV_GEM_HOME+_\x7d\" ] ; then\n"
    ++ "        GEM_HOME=\"$_OLD_RUBYVENV_GEM_HOME\"\n"
    ++ "        export GEM_HOME\n"
    ++ "        unset _OLD_RUBYVENV_GEM_HOME\n"
    ++ "    fi\n"
    ++ "\n"
    ++ "    unset RUBYVENV\n"
    ++ "    if [ ! \"$\x7b1-\x7d\" = \"nondestructive\" ] ; then\n"
    ++ "        # Self destruct!\n"
    ++ "        unset -f deactivate_rubyvenv\n"
    ++ "    fi\n"
    ++ "\x7d\n"
    ++ "\n"
    ++ "# unset irrelevant variables\n"
    ++ "deactivate_rubyvenv nondestructive\n"
    ++ "\n"
    ++ "RUBYVENV=DIRECTORY\n"
    ++ "export RUBYVENV\n"
    ++ "\n"
    ++ "_OLD_RUBYVENV_PATH=\"$PATH\"\n"
    ++ "PATH=\"$\x7bRUBYVENV\x7d/bin:$\x7bRUBYVENV\x7d/lib/gems/bin:$\x7bPATH\x7d\"\n"
    ++ "export PATH\n"
    ++ "\n"
    ++ "# This should detect bash and zsh, which have a hash command that must\n"
    ++ "# be called to get it to forget past commands.  Without forgetting\n"
    ++ "# past commands the $PATH changes we made may not be respected\n"
    ++ "if [ -n \"$\x7bBASH-\x7d\" ] || [ -n \"$\x7bZSH_VERSION-\x7d\" ] ; then\n"
    ++ "    hash -r 2>/dev/null\n"
    ++ "fi\n"
    ++ "\n"
    ++ "_OLD_RUBYVENV_PS1=\"$PS1\"\n"
    ++ "PS1=\"($(basename \"$RUBYVENV\")) $PS1\"\n"
    ++ "export PS1\n")

/-- The `SET_GEM_HOME` extra assignments of the source, verbatim. -/
def SET_GEM_HOME : List Char := String.toList (
  "_OLD_RUBYVENV_GEM_HOME=\"$\x7bGEM_HOME:-\x7d\"\n"
    ++ "GEM_HOME=\"$RUBYVENV/lib/gems\"\n"
    ++ "export GEM_HOME\n")

/-- The 1191 characters of `ACTIVATE` before the `DIRECTORY` placeholder. -/
def activateBefore : List Char := ACTIVATE.take 1191

/-- The characters of `ACTIVATE` after the `DIRECTORY` placeholder. -/
def activateAfter : List Char := ACTIVATE.drop 1200

/-- `_write_activate(dest, more)`: the file content written to
`dest/bin/activate`, namely
`ACTIVATE.replace('DIRECTORY', pipes.quote(dest))` followed by `more`. -/
def write_activate (dest more : List Char) : List Char :=
  replaceAll "DIRECTORY".toList (shellQuote dest) ACTIVATE ++ more

/-! ## Helper lemmas -/

/-- `containsSub` agrees with list-infix. -/
theorem containsSub_true_iff (pat : List Char) (s : List Char) :
    containsSub pat s = true ↔ pat <:+: s := by
  induction s with
  | nil =>
    simp [containsSub, List.isPrefixOf_iff_prefix]
  | cons c rest ih =>
    simp only [containsSub, Bool.or_eq_true, List.isPrefixOf_iff_prefix, ih]
    exact (List.infix_cons_iff).symm

/-- Dropping up to the first separator from `seg ++ '/' :: rest` stops at
that separator when `seg` is separator-free. -/
theorem dropWhile_until_sep (seg rest : List Char) (hseg : '/' ∉ seg) :
    (seg ++ '/' :: rest).dropWhile (fun c => !(c == '/')) = '/' :: rest := by
  induction seg with
  | nil => simp [List.dropWhile]
  | cons a s ih =>
    have ha : (a == '/') = false := by
      simpa using fun h => hseg (by simp [h])
    have hs : '/' ∉ s := fun h => hseg (List.mem_cons_of_mem _ h)
    simp [List.dropWhile_cons, ha, ih hs]

/-- Removing an absent path is a no-op. -/
theorem fsErase_of_lookup_none (p : List Char) (fs : FS)
    (h : fsLookup p fs = none) : fsErase p fs = fs := by
  unfold fsLookup at h
  have hfind := Option.map_eq_none.mp h
  refine List.filter_eq_self.mpr ?_
  intro a ha
  have := List.find?_eq_none.mp hfind a ha
  simpa using this

/-- Removing a path right after writing it removes exactly that write. -/
theorem fsErase_fsWrite (p : List Char) (d : List Nat) (fs : FS) :
    fsErase p (fsWrite p d fs) = fsErase p fs := by
  unfold fsErase fsWrite fsErase
  simp [List.filter_filter]

/-- `str.replace` leaves a string without occurrences unchanged. -/
theorem replaceAll_no_occ (pat rep : List Char) (s : List Char)
    (h : containsSub pat s = false) : replaceAll pat rep s = s := by
  induction s with
  | nil => simp [replaceAll]
  | cons c rest ih =>
    have h1 : pat.isPrefixOf (c :: rest) = false := by
      cases hp : pat.isPrefixOf (c :: rest)
      · rfl
      · rw [containsSub, hp] at h
        simp at h
    have h2 : containsSub pat rest = false := by
      rw [containsSub, h1] at h
      simpa using h
    simp only [replaceAll]
    rw [dif_neg fun hc => by rw [h1] at hc; exact absurd hc.2 (by simp)]
    exact congrArg (c :: ·) (ih h2)

/-- `str.replace` on `a ++ pat ++ b` with no occurrence of `pat` starting
inside `a` replaces that occurrence and recurses on `b`. -/
theorem replaceAll_split (pat rep b : List Char) (hpat : pat ≠ []) :
    ∀ a : List Char, noEarlyOcc pat a (pat ++ b) = true →
      replaceAll pat rep (a ++ (pat ++ b))
        = a ++ (rep ++ replaceAll pat rep b) := by
  intro a
  induction a with
  | nil =>
    intro _
    simp only [List.nil_append]
    cases hpb : pat ++ b with
    | nil => exact absurd (List.append_eq_nil.mp hpb).1 hpat
    | cons c rest =>
      simp only [replaceAll]
      rw [dif_pos ⟨hpat, by
        rw [← hpb]
        exact List.isPrefixOf_iff_prefix.mpr (List.prefix_append pat b)⟩]
      rw [← hpb, List.drop_left]
  | cons c a' ih =>
    intro h
    have hsplit : pat.isPrefixOf (c :: (a' ++ (pat ++ b))) = false
        ∧ noEarlyOcc pat a' (pat ++ b) = true := by
      simpa [noEarlyOcc] using h
    have h1 := hsplit.1
    have h2 := hsplit.2
    simp only [List.cons_append, replaceAll]
    rw [dif_neg fun hc => by rw [h1] at hc; exact absurd hc.2 (by simp)]
    rw [ih h2]

/-- `ACTIVATE` splits at its unique `DIRECTORY` placeholder. -/
theorem activate_split :
    ACTIVATE = activateBefore ++ ("DIRECTORY".toList ++ activateAfter) := by
  rfl

/-- The content written by `_write_activate`, in split form: everything
before the placeholder, the quoted destination, everything after, then
the extra assignments. -/
theorem write_activate_eq (dest more : List Char) :
    write_activate dest more
      = activateBefore ++ (shellQuote dest ++ (activateAfter ++ more)) := by
  rw [write_activate, activate_split,
    replaceAll_split "DIRECTORY".toList (shellQuote dest) activateAfter
      (by decide) activateBefore (by decide),
    replaceAll_no_occ "DIRECTORY".toList (shellQuote dest) activateAfter
      (by decide)]
  simp [List.append_assoc]

/-! ## Claim theorems -/

/-- `C6`: for every filename carrying both fixed literals,
`_version_to_filename (_filename_to_version f) = f`: the two maps are exact
inverses on the valid-filename domain. -/
theorem filename_version_roundtrip (f : List Char)
    (hpre : rubyLead.isPrefixOf f) (hsuf : tarBz2Trail.isSuffixOf f) :
    (filename_to_version f).map version_to_filename = some f := by
  have hp : rubyLead <+: f := List.isPrefixOf_iff_prefix.mp hpre
  have hs : tarBz2Trail <:+ f := List.isSuffixOf_iff_suffix.mp hsuf
  obtain ⟨s, hsq⟩ := hs
  rcases Nat.lt_or_ge s.length 5 with hlt | hge
  · -- impossible: the two literals would overlap, but no character of
    -- `'ruby-'` is `'.'`
    exfalso
    obtain ⟨t, ht⟩ := hp
    have heq : rubyLead ++ t = s ++ tarBz2Trail := ht.trans hsq.symm
    have h1 : (rubyLead ++ t)[s.length]? = rubyLead[s.length]? := by
      rw [List.getElem?_append_left]
      simpa [rubyLead] using hlt
    have h2 : (s ++ tarBz2Trail)[s.length]? = some '.' := by
      rw [List.getElem?_append_right (Nat.le_refl _)]
      simp [tarBz2Trail]
    rw [heq, h2] at h1
    have hk := hlt
    set k := s.length with hkdef
    interval_cases k <;> simp [rubyLead] at h1
  · -- the real case: `f = 'ruby-' ++ m ++ '.tar.bz2'`
    have hsf : s <+: f := ⟨tarBz2Trail, hsq⟩
    have hps : rubyLead <+: s := by
      refine List.prefix_of_prefix_length_le hp hsf ?_
      simpa [rubyLead] using hge
    obtain ⟨m, hm⟩ := hps
    have hf : f = rubyLead ++ m ++ tarBz2Trail := by
      rw [← hsq, ← hm, List.append_assoc]
    have hlen : f.length = m.length + 13 := by
      rw [hf]
      simp [rubyLead, tarBz2Trail]
    have hdrop : f.drop rubyLead.length = m ++ tarBz2Trail := by
      rw [hf, List.append_assoc, List.drop_left]
    have htake : (m ++ tarBz2Trail).take
        (f.length - (rubyLead.length + tarBz2Trail.length)) = m := by
      have : f.length - (rubyLead.length + tarBz2Trail.length) = m.length := by
        simp [rubyLead, tarBz2Trail, hlen]
      rw [this, List.take_left]
    simp only [filename_to_version, hpre, hsuf, if_true, Option.map_some]
    rw [hdrop, htake]
    exact congrArg some hf.symm

/-- Witness for `C6` at the concrete filename `ruby-2.3.1.tar.bz2`. -/
theorem filename_version_roundtrip_witness :
    (filename_to_version "ruby-2.3.1.tar.bz2".toList).map version_to_filename
      = some "ruby-2.3.1.tar.bz2".toList :=
  filename_version_roundtrip _ (by decide) (by decide)

/-- `C8`: a filename missing the leading `'ruby-'` literal or the trailing
`'.tar.bz2'` literal makes `_filename_to_version` fail with an
assertion-class error (modelled as `none`) rather than return a version. -/
theorem filename_to_version_missing_affix (f : List Char)
    (h : ¬ rubyLead.isPrefixOf f ∨ ¬ tarBz2Trail.isSuffixOf f) :
    filename_to_version f = none := by
  rw [filename_to_version]
  rcases h with h | h
  · rcases hs : tarBz2Trail.isSuffixOf f with _ | _ <;> simp [h]
  · simp [h]

/-- Witness for `C8`: a filename with the right trailing literal but the
wrong leading literal maps to the assertion failure. -/
theorem filename_to_version_missing_affix_witness :
    filename_to_version "jruby-1.7.tar.bz2".toList = none :=
  filename_to_version_missing_affix _ (Or.inl (by decide))

/-- `C1`: when the cache-relative path is not yet cached and any step after
the temp file is created fails (source opener raising: `part = []`, or a
mid-copy failure: arbitrary `part`), `ensure_cache_file` deletes the temp
file, re-raises the exception, leaves no file at the final cache path, and
leaves the staging directory without the orphaned temp file — indeed the
whole modelled filesystem is exactly as before. -/
theorem ensure_cache_file_failure_cleanup {E : Type}
    (cache_dir relpath tmpname : List Char) (part : List Nat) (e : E)
    (fs : FS)
    (hmiss : fsLookup (osPathJoin cache_dir relpath) fs = none)
    (hfresh : fsLookup
      (osPathJoin (osPathJoin cache_dir "tmp".toList) tmpname) fs = none) :
    ensure_cache_file cache_dir relpath tmpname (SourceResult.err part e) fs
        = (fs, Except.error e)
      ∧ fsLookup (osPathJoin cache_dir relpath)
          (ensure_cache_file cache_dir relpath tmpname
            (SourceResult.err part e) fs).1 = none
      ∧ fsLookup (osPathJoin (osPathJoin cache_dir "tmp".toList) tmpname)
          (ensure_cache_file cache_dir relpath tmpname
            (SourceResult.err part e) fs).1 = none := by
  have hstate :
      ensure_cache_file cache_dir relpath tmpname (SourceResult.err part e) fs
        = (fs, Except.error e) := by
    unfold ensure_cache_file
    rw [hmiss]
    simp only [Option.isSome_none, Bool.false_eq_true, if_false]
    rw [fsErase_fsWrite, fsErase_fsWrite, fsErase_of_lookup_none _ _ hfresh]
  refine ⟨hstate, ?_, ?_⟩ <;> rw [hstate] <;> assumption

/-- Witness for `C1` on an initially empty cache. -/
theorem ensure_cache_file_failure_cleanup_witness :
    ensure_cache_file (E := Nat) "/c".toList "a/f.bin".toList "t0".toList
        (SourceResult.err [1, 2] 7) []
      = ([], Except.error 7) :=
  (ensure_cache_file_failure_cleanup "/c".toList "a/f.bin".toList
    "t0".toList [1, 2] 7 [] rfl rfl).1

/-- `C5`: when a file already exists at `cacheRoot/relativePath`,
`ensure_cache_file` returns that path with the filesystem untouched, and
the result does not depend on the source opener at all (`src` is
universally quantified), so repeated calls are idempotent by path
existence alone. -/
theorem ensure_cache_file_hit {E : Type}
    (cache_dir relpath tmpname : List Char) (src : SourceResult E)
    (fs : FS) (d : List Nat)
    (hhit : fsLookup (osPathJoin cache_dir relpath) fs = some d) :
    ensure_cache_file cache_dir relpath tmpname src fs
      = (fs, Except.ok (osPathJoin cache_dir relpath)) := by
  unfold ensure_cache_file
  rw [hhit]
  rfl

/-- Witness for `C5`: a one-file cache, hit by both a failing and a
succeeding source. -/
theorem ensure_cache_file_hit_witness :
    ensure_cache_file (E := Nat) "/c".toList "a".toList "t0".toList
        (SourceResult.err [9] 3) [("/c/a".toList, [7])]
      = ([("/c/a".toList, [7])], Except.ok "/c/a".toList)
    ∧ ensure_cache_file (E := Nat) "/c".toList "a".toList "t0".toList
        (SourceResult.ok [5]) [("/c/a".toList, [7])]
      = ([("/c/a".toList, [7])], Except.ok "/c/a".toList) := by
  constructor
  · exact ensure_cache_file_hit "/c".toList "a".toList "t0".toList
      (SourceResult.err [9] 3) [("/c/a".toList, [7])] [7] (by decide)
  · exact ensure_cache_file_hit "/c".toList "a".toList "t0".toList
      (SourceResult.ok [5]) [("/c/a".toList, [7])] [7] (by decide)

/-- `C2`: the installer's member transformation (i) factors as the filter
stage followed by the rewrite stage, (ii) keeps exactly the members whose
name neither ends in the `/cache` trailing component nor contains a
`/cache/` component anywhere, (iii) strips the first path segment of every
kept name, and (iv) rewrites a name with no separator (the lone top-level
wrapper directory) to the empty/root path. -/
theorem make_environment_members_spec (names : List (List Char)) :
    make_environment_members names
        = (names.filter member_kept).map member_stripped
      ∧ (∀ n : List Char, member_kept n = true
          ↔ ¬ ("/cache".toList <:+ n) ∧ ¬ ("/cache/".toList <:+: n))
      ∧ (∀ seg rest : List Char, '/' ∉ seg →
          member_stripped (seg ++ '/' :: rest) = rest)
      ∧ (∀ n : List Char, '/' ∉ n → member_stripped n = []) := by
  refine ⟨rfl, ?_, ?_, ?_⟩
  · intro n
    simp [member_kept, ← List.isSuffixOf_iff_suffix, ← containsSub_true_iff]
  · intro seg rest hseg
    have hmem : '/' ∈ seg ++ '/' :: rest := by simp
    rw [member_stripped, if_pos hmem, dropWhile_until_sep seg rest hseg]
    rfl
  · intro n hn
    simp [member_stripped, hn]

/-- Witness for `C2` on a concrete member list containing a `/cache`
member, a nested `/cache/` member, a regular member and the lone wrapper
directory. -/
theorem make_environment_members_spec_witness :
    member_stripped ("wrapper".toList ++ '/' :: "lib/x".toList)
        = "lib/x".toList
      ∧ member_stripped "wrapper".toList = [] :=
  ⟨(make_environment_members_spec []).2.2.1 "wrapper".toList "lib/x".toList
      (by decide),
    (make_environment_members_spec []).2.2.2 "wrapper".toList (by decide)⟩

/-- `C3`: `_decode_response` returns the direct strict UTF-8 decode of the
raw bytes whenever it succeeds (for every gzip black box, so gzip is not
consulted), and exactly when that decode fails it returns the UTF-8 decode
of the gzip-decompressed bytes. -/
theorem decode_response_spec (resp_bytes : List Nat) :
    (∀ s, utf8Decode resp_bytes = some s →
      ∀ gunzip, decode_response gunzip resp_bytes = some s)
    ∧ (utf8Decode resp_bytes = none →
      ∀ gunzip, decode_response gunzip resp_bytes
        = (gunzip resp_bytes).bind utf8Decode) := by
  constructor
  · intro s hs gunzip
    simp [decode_response, hs]
  · intro hn gunzip
    simp [decode_response, hn]

/-- Witness for `C3`: the plain-text bytes `'hi'` decode directly under
every gzip behaviour, and the bytes `1f 8b` (a gzip magic, invalid as
UTF-8) are routed through the gzip fallback. -/
theorem decode_response_spec_witness :
    decode_response (fun _ => none) [104, 105] = some [104, 105]
      ∧ decode_response (fun _ => some [104, 105]) [31, 139]
        = some [104, 105] :=
  ⟨(decode_response_spec [104, 105]).1 [104, 105] (by decide) _,
    ((decode_response_spec [31, 139]).2 (by decide)
      (fun _ => some [104, 105])).trans (by decide)⟩

/-- `C4`: `pick_version` returns the last catalog entry for the sentinel
`'latest'`, and for any other token returns the token itself paired with
the URL templated from the platform's rvm URL and the token's archive
filename, with the result independent of the catalog (no fetch) in that
branch. -/
theorem pick_version_spec (urljoin : List Char → List Char → List Char)
    (p : Platform) (catalog : List Version) (tok : List Char) :
    (tok = "latest".toList →
      pick_version urljoin p catalog tok = catalog.getLast?)
    ∧ (tok ≠ "latest".toList →
      pick_version urljoin p catalog tok
          = some ⟨tok, urljoin p.rvm_url (rubyLead ++ tok ++ tarBz2Trail)⟩
        ∧ ∀ catalog₂ : List Version,
          pick_version urljoin p catalog₂ tok
            = pick_version urljoin p catalog tok) := by
  constructor
  · intro h
    rw [pick_version, if_pos h]
  · intro h
    constructor
    · rw [pick_version, if_neg h]
      simp only [download_url, version_to_filename]
    · intro catalog₂
      rw [pick_version, pick_version, if_neg h, if_neg h]

/-- Witness for `C4` on a two-entry catalog: `'latest'` picks the last
entry, an explicit token is templated directly. -/
theorem pick_version_spec_witness :
    pick_version (fun b r => b ++ r)
        ⟨"ubuntu".toList, "16.04".toList, "x86_64".toList⟩
        [⟨"2.3.0".toList, "u0".toList⟩, ⟨"2.3.1".toList, "u1".toList⟩]
        "latest".toList
      = some ⟨"2.3.1".toList, "u1".toList⟩
    ∧ pick_version (fun b r => b ++ r)
        ⟨"ubuntu".toList, "16.04".toList, "x86_64".toList⟩
        [⟨"2.3.0".toList, "u0".toList⟩, ⟨"2.3.1".toList, "u1".toList⟩]
        "2.2.5".toList
      = some ⟨"2.2.5".toList,
          "https://rvm.io/binaries/ubuntu/16.04/x86_64/ruby-2.2.5.tar.bz2".toList⟩ :=
  ⟨((pick_version_spec _ _ _ _).1 rfl).trans (by decide),
    ((pick_version_spec (fun b r => b ++ r)
        ⟨"ubuntu".toList, "16.04".toList, "x86_64".toList⟩
        [⟨"2.3.0".toList, "u0".toList⟩, ⟨"2.3.1".toList, "u1".toList⟩]
        "2.2.5".toList).2 (by decide)).1.trans (by decide)⟩

/-- `C10`: on a listing whose hrefs include one that starts with `'ruby-'`
but does not end with `'.tar.bz2'`, `get_prebuilt_versions` propagates the
assertion failure of `_filename_to_version` (the catalog filter checks
only the leading literal), instead of skipping the entry — dropping the
offending href makes the same call succeed. -/
theorem get_prebuilt_versions_bad_href :
    get_prebuilt_versions (fun b r => b ++ r)
        ⟨"ubuntu".toList, "16.04".toList, "x86_64".toList⟩
        [some "../".toList, some "ruby-2.3.1.tar.bz2".toList,
          some "ruby-2.4.0.tar.gz".toList]
      = none
    ∧ get_prebuilt_versions (fun b r => b ++ r)
        ⟨"ubuntu".toList, "16.04".toList, "x86_64".toList⟩
        [some "../".toList, some "ruby-2.3.1.tar.bz2".toList]
      = some [⟨"2.3.1".toList,
          "https://rvm.io/binaries/ubuntu/16.04/x86_64/ruby-2.3.1.tar.bz2".toList⟩] := by
  constructor
  · decide
  · decide

/-- `C9`: with `--list-versions` absent and no destination argument, the
entry point dispatches to `parser.error('DEST_DIR is required')` — exit
status 2 (non-zero) with the required-destination message — and to neither
of the two installation actions. -/
theorem main_dispatch_no_dest (args : Args)
    (hlv : args.list_versions = false) (hdest : args.dest = none) :
    main_dispatch args
        = MainAction.usage_error 2 "DEST_DIR is required".toList
      ∧ (2 : Nat) ≠ 0
      ∧ (∀ d r : List Char,
          main_dispatch args ≠ MainAction.make_environment d r)
      ∧ (∀ d : List Char,
          main_dispatch args ≠ MainAction.make_system_environment d) := by
  have h : main_dispatch args
      = MainAction.usage_error 2 "DEST_DIR is required".toList := by
    simp [main_dispatch, hlv, hdest]
  refine ⟨h, by decide, ?_, ?_⟩
  · intro d r
    rw [h]
    intro hc
    exact MainAction.noConfusion hc
  · intro d
    rw [h]
    intro hc
    exact MainAction.noConfusion hc

/-- Witness for `C9` at the concrete invocation `rubyvenv` (defaulted
`--ruby latest`, no flags, no positional argument). -/
theorem main_dispatch_no_dest_witness :
    main_dispatch ⟨none, "latest".toList, false⟩
      = MainAction.usage_error 2 "DEST_DIR is required".toList :=
  (main_dispatch_no_dest ⟨none, "latest".toList, false⟩ rfl rfl).1

/-- `C7` (amended): for every destination and every `more`, the generated
activation script contains the line assigning the environment marker
variable the shell-quoted destination, the backup lines for the search
path and the prompt, and the line that prepends both the destination's
`bin` directory and the `lib/gems/bin` subdirectory to the search path —
the latter unconditionally, so in particular whenever extra assignments
are supplied. -/
theorem write_activate_content (dest more : List Char) :
    ('\n' :: ("RUBYVENV=".toList ++ (shellQuote dest ++ ['\n'])))
        <:+: write_activate dest more
      ∧ "\n_OLD_RUBYVENV_PATH=\"$PATH\"\n".toList <:+: write_activate dest more
      ∧ "\n_OLD_RUBYVENV_PS1=\"$PS1\"\n".toList <:+: write_activate dest more
      ∧ "\nPATH=\"$\x7bRUBYVENV\x7d/bin:$\x7bRUBYVENV\x7d/lib/gems/bin:$\x7bPATH\x7d\"\n".toList
        <:+: write_activate dest more := by
  have emb : ∀ p : List Char, containsSub p activateAfter = true →
      p <:+: write_activate dest more := by
    intro p hp
    refine (containsSub_true_iff p activateAfter).mp hp |>.trans ?_
    refine ⟨activateBefore ++ shellQuote dest, more, ?_⟩
    rw [write_activate_eq]
    simp [List.append_assoc]
  refine ⟨?_, emb _ (by decide), emb _ (by decide), emb _ (by decide)⟩
  have hb : ("\nRUBYVENV=".toList).isSuffixOf activateBefore = true := by
    decide
  obtain ⟨x, hx⟩ := List.isSuffixOf_iff_suffix.mp hb
  have ha : activateAfter = '\n' :: activateAfter.drop 1 := by rfl
  refine ⟨x, activateAfter.drop 1 ++ more, ?_⟩
  rw [write_activate_eq, ← hx]
  conv_rhs => rw [ha]
  simp [List.append_assoc]

/-- `C7` counterexample: with NO extra assignments supplied
(`more = ''`, as in `make_environment`), the generated script still
prepends the `lib/gems/bin` subdirectory to the search path — the
prepending is not conditional on extra assignments. -/
theorem write_activate_gems_without_extras :
    "\nPATH=\"$\x7bRUBYVENV\x7d/bin:$\x7bRUBYVENV\x7d/lib/gems/bin:$\x7bPATH\x7d\"\n".toList
      <:+: write_activate "/dest".toList [] := by
  refine (containsSub_true_iff _ activateAfter).mp (by decide) |>.trans ?_
  refine ⟨activateBefore ++ shellQuote "/dest".toList, [], ?_⟩
  rw [write_activate_eq]
  simp [List.append_assoc]
